import Mathlib

/-!
Verification of the Tippmix E-sport scraper against its specification.

The Python modules under src/tippmix_scraper are shallowly embedded:
Python values are modelled by the inductive type PyVal, Python semantics
(truthiness, str(), dict.get, the or operator, raised exceptions) by
explicit total functions, fallible code by Except, the SQLite store by
lists of typed rows, and external I/O (the geo probe, the date-text
parser, timestamp conversion) by function parameters.
-/

set_option maxRecDepth 4000

namespace Tippmix

/-- A Python/JSON value as the scraper sees it. Floats are modelled as
exact rationals; dicts as association lists with unique keys. -/
inductive PyVal where
  | none
  | bool (b : Bool)
  | int (n : Int)
  | float (q : Rat)
  | str (s : String)
  | list (xs : List PyVal)
  | dict (kvs : List (String × PyVal))

/-- Python truthiness: None, False, 0, 0.0, "", [] and {} are falsy. -/
def pyTruthy : PyVal → Bool
  | .none => false
  | .bool b => b
  | .int n => n != 0
  | .float q => q != 0
  | .str s => s != ""
  | .list xs => !xs.isEmpty
  | .dict kvs => !kvs.isEmpty

/-- Python's short-circuiting or on values: a or b returns a when a is
truthy, otherwise b. -/
def pyOr (a b : PyVal) : PyVal :=
  if pyTruthy a then a else b

/-- Rendering of a rational in decimal-ish form; CPython float repr is
approximated (no claim depends on the exact rendering of a float). -/
def ratRender (q : Rat) : String :=
  if q.den = 1 then toString q.num else toString q.num ++ "/" ++ toString q.den

/-- Python str() conversion. None renders as the string None, which is
what makes str(item.get(k)) truthy even for a missing key. Container
rendering approximates CPython repr; no claim depends on it. -/
def pyStr : PyVal → String
  | .none => "None"
  | .bool b => if b then "True" else "False"
  | .int n => toString n
  | .float q => ratRender q
  | .str s => s
  | .list _ => "[...]"
  | .dict _ => "\x7b...\x7d"

/-- Python dict.get on an association list: the value bound to the key,
or None when absent. -/
def dictGet (kvs : List (String × PyVal)) (k : String) : PyVal :=
  match kvs.find? (fun kv => kv.fst == k) with
  | Option.some kv => kv.snd
  | Option.none => .none

/-- Exceptions the embedded Python code can raise. -/
inductive PyErr where
  | attributeError
  | typeError
  deriving DecidableEq

def isDict : PyVal → Bool
  | .dict _ => true
  | _ => false

/-- item.get(k): dict.get when the receiver is a dict, otherwise the
AttributeError Python raises for objects without a get method. -/
def pyGet (v : PyVal) (k : String) : Except PyErr PyVal :=
  match v with
  | .dict kvs => .ok (dictGet kvs k)
  | _ => .error .attributeError

/-- Does the needle occur at the head of the haystack (as char lists)? -/
def charsHeadMatch : List Char → List Char → Bool
  | [], _ => true
  | _ :: _, [] => false
  | a :: as, b :: bs => a == b && charsHeadMatch as bs

/-- Does the needle occur anywhere in the haystack (as char lists)? -/
def charsOccur (needle : List Char) : List Char → Bool
  | [] => charsHeadMatch needle []
  | b :: bs => charsHeadMatch needle (b :: bs) || charsOccur needle bs

/-- Python's substring test: needle in hay. -/
def pyIn (needle hay : String) : Bool :=
  charsOccur needle.data hay.data

/-- Python str.lower(); ASCII case folding, as for every string the code
compares. -/
def pyLower (s : String) : String :=
  String.mk (s.data.map Char.toLower)

/-- Drop leading whitespace characters. -/
def dropLeadingWs : List Char → List Char
  | [] => []
  | c :: cs => if c.isWhitespace then dropLeadingWs cs else c :: cs

/-- Python str.strip(): drop leading and trailing whitespace. -/
def pyStrip (s : String) : String :=
  String.mk ((dropLeadingWs ((dropLeadingWs s.data).reverse)).reverse)

/-- Python's or on strings (nonempty wins). -/
def strOr (a b : String) : String :=
  if a != "" then a else b

/-- parser.parse_datetime from src/tippmix_scraper/parser.py.

External behaviour is passed in: fts models datetime.fromtimestamp
(Option.none when it raises, e.g. out-of-range input) and tp models
dateutil.parser.parse on a text date (Option.none when it raises).
Timestamps are rationals. Python treats bool as an int, so a bool input
takes the numeric branch with value 1 or 0. -/
def parse_datetime (fts : Rat → Option Rat) (tp : String → Option Rat) :
    PyVal → Option Rat
  | .none => Option.none
  | .bool b =>
      let v : Rat := if b then 1 else 0
      if v > 10000000000 then fts (v / 1000) else fts v
  | .int n =>
      if (n : Rat) > 10000000000 then fts ((n : Rat) / 1000) else fts (n : Rat)
  | .float q =>
      if q > 10000000000 then fts (q / 1000) else fts q
  | .str s => if pyStrip s ≠ "" then tp s else Option.none
  | .list _ => Option.none
  | .dict _ => Option.none

/-- blocker.choose_mitigation from src/tippmix_scraper/blocker.py:
t = (block_type or "").lower(), then the fixed if-chain. For string
input (block_type or "") is the identity, kept here as strOr. -/
def choose_mitigation (block_type : String) : String :=
  let t := pyLower (strOr block_type "")
  if t == "geo_ip_block" then "rotate_proxy_or_hu_exit"
  else if t == "captcha" then "stealth_and_retry_with_human_mouse"
  else if t == "rate_limit" then "backoff_and_randomize"
  else if t == "html_block" then "force_proxy_and_web_context"
  else "generic_retry"

/-- mitigator.rotate_proxy slices the candidate list into consecutive
batches of 30 (the range(0, len(cands), batch) loop). -/
def chunk30 : List String → List (List String)
  | [] => []
  | x :: xs => (x :: xs.take 29) :: chunk30 (xs.drop 29)
termination_by l => l.length
decreasing_by simp; omega

/-- The zip(sub, checks) scan inside one batch: checks are the gathered
is_hu results, and the loop returns the first candidate whose check
passed. -/
def firstPassing (probe : String → Bool) : List String → Option String
  | [] => Option.none
  | p :: ps => if probe p then Option.some p else firstPassing probe ps

/-- The batch loop of mitigator.rotate_proxy over pre-sliced batches:
on the first batch containing a passing candidate the proxy is written
to ACTIVE_PROXY_FILE (modelled as replacing the state) and returned;
later batches are not scanned. -/
def rotateGo (probe : String → Bool) :
    List (List String) → Option String → Option String × Option String
  | [], st => (Option.none, st)
  | sub :: rest, st =>
    match firstPassing probe sub with
    | Option.some p => (Option.some p, Option.some p)
    | Option.none => rotateGo probe rest st

/-- mitigator.rotate_proxy from src/tippmix_scraper/mitigator.py.
The candidate pool (fetch_candidates's network result) and the geo
probe (is_hu's network result) are parameters; the file write is
modelled as replacing the Active Proxy State and assumed to succeed.
Returns (returned value, Active Proxy State afterwards). -/
def rotate_proxy (probe : String → Bool) (cands : List String)
    (st : Option String) : Option String × Option String :=
  rotateGo probe (chunk30 cands) st

/-- mitigator.auto_mitigate: only the rotate_proxy_or_hu_exit strategy
runs an action; every other strategy returns None with the Active
Proxy State untouched. -/
def auto_mitigate (probe : String → Bool) (cands : List String)
    (block_type : String) (st : Option String) :
    Option String × Option String :=
  let strat := choose_mitigation block_type
  if strat == "rotate_proxy_or_hu_exit" then rotate_proxy probe cands st
  else (Option.none, st)

/-- models.MatchOdd from src/tippmix_scraper/models.py. -/
structure MatchOdd where
  market : String
  selection : String
  odds : Rat
  deriving DecidableEq

/-- models.Match from src/tippmix_scraper/models.py. start_time is the
parsed timestamp (a rational, see parse_datetime). -/
structure Match where
  match_id : String
  sport : String
  tournament : Option String
  home_team : String
  away_team : String
  start_time : Option Rat
  is_live : Bool
  odds : List MatchOdd
  raw : PyVal

/-- Row of the matches table (storage.SCHEMA_SQL). start_time is kept
as the value it serializes from; is_live as the stored 0/1 flag. -/
structure MatchRow where
  match_id : String
  sport : String
  tournament : Option String
  home_team : String
  away_team : String
  start_time : Option Rat
  is_live : Bool
  created_at : String
  updated_at : String
  deriving DecidableEq

/-- Row of the odds table, primary key (match_id, market, selection). -/
structure OddsRow where
  match_id : String
  market : String
  selection : String
  odds : Rat
  updated_at : String
  deriving DecidableEq

/-- Row of the raw_responses table (autoincrement id omitted). -/
structure RawRow where
  match_id : Option String
  payload : PyVal
  received_at : String

/-- Row of the network_events table (autoincrement id omitted). -/
structure NetRow where
  occurred_at : String
  phase : String
  url : String
  method : Option String
  status : Option Int
  resource_type : Option String
  headers : Option (List (String × String))
  body_bytes : Option Int
  duration_ms : Option Rat
  error : Option String

/-- Row of the block_events table described in the spec (autoincrement
id omitted). -/
structure BlockRow where
  occurred_at : String
  source : String
  url : String
  status : Option Int
  block_type : String
  evidence : String
  proxy_used : Option String
  user_agent : Option String
  deriving DecidableEq

/-- The SQLite database of storage.py as lists of rows. The matches
table is named matchesT because matches is a Lean keyword. -/
structure Store where
  matchesT : List MatchRow
  odds : List OddsRow
  raw_responses : List RawRow
  network_events : List NetRow
  block_events : List BlockRow

/-- The matches INSERT ... ON CONFLICT(match_id) DO UPDATE of
storage.upsert_match: on conflict every column except match_id and
created_at is overwritten from the excluded row; otherwise a fresh row
with created_at = updated_at = now is inserted. -/
def upsertMatchRow (now : String) (m : Match) (rows : List MatchRow) :
    List MatchRow :=
  if rows.any (fun r => r.match_id == m.match_id) then
    rows.map (fun r =>
      if r.match_id == m.match_id then
        { r with sport := m.sport, tournament := m.tournament,
                 home_team := m.home_team, away_team := m.away_team,
                 start_time := m.start_time, is_live := m.is_live,
                 updated_at := now }
      else r)
  else
    rows ++ [{ match_id := m.match_id, sport := m.sport,
               tournament := m.tournament, home_team := m.home_team,
               away_team := m.away_team, start_time := m.start_time,
               is_live := m.is_live, created_at := now, updated_at := now }]

/-- Does row r carry the odds primary key (id, market, selection)? -/
def sameOddsKey (r : OddsRow) (id market selection : String) : Bool :=
  r.match_id == id && r.market == market && r.selection == selection

/-- The odds INSERT ... ON CONFLICT(match_id, market, selection)
DO UPDATE of storage.upsert_match: on conflict odds and updated_at are
overwritten, otherwise the row is inserted. -/
def upsertOddsRow (now : String) (id : String) (o : MatchOdd)
    (rows : List OddsRow) : List OddsRow :=
  if rows.any (fun r => sameOddsKey r id o.market o.selection) then
    rows.map (fun r =>
      if sameOddsKey r id o.market o.selection then
        { r with odds := o.odds, updated_at := now }
      else r)
  else
    rows ++ [{ match_id := id, market := o.market, selection := o.selection,
               odds := o.odds, updated_at := now }]

/-- The odds loop of storage.upsert_match: upsert each MatchOdd in
order. -/
def applyOdds (now : String) (id : String) (os : List MatchOdd)
    (rows : List OddsRow) : List OddsRow :=
  os.foldl (fun acc o => upsertOddsRow now id o acc) rows

/-- storage.upsert_match: one transaction writing the match row and
every odds row; now is the wall-clock datetime.utcnow().isoformat(). -/
def upsert_match (now : String) (m : Match) (s : Store) : Store :=
  { s with matchesT := upsertMatchRow now m s.matchesT,
           odds := applyOdds now m.match_id m.odds s.odds }

/-- storage.insert_raw: append-only insert into raw_responses. -/
def insert_raw (now : String) (match_id : Option String) (payload : PyVal)
    (s : Store) : Store :=
  { s with raw_responses := s.raw_responses ++ [⟨match_id, payload, now⟩] }

/-- storage.insert_network_event: append-only insert into
network_events, occurred_at = now. -/
def insert_network_event (now : String) (phase url : String)
    (method : Option String) (status : Option Int)
    (resource_type : Option String) (headers : Option (List (String × String)))
    (body_bytes : Option Int) (duration_ms : Option Rat)
    (error : Option String) (s : Store) : Store :=
  { s with network_events := s.network_events ++
      [⟨now, phase, url, method, status, resource_type, headers,
        body_bytes, duration_ms, error⟩] }

/-- Modelled from the spec: insert_block_event is imported from
storage.py by scraper.py and selenium_scraper.py but its definition is
missing there (SCHEMA_SQL also lacks the block_events table); per spec
sections 4.2 and 6 appendBlockEvent is a pure append of one
block_events row that never fails the caller. -/
def insert_block_event (now : String) (source url : String)
    (status : Option Int) (block_type evidence : String)
    (proxy_used user_agent : Option String) (s : Store) : Store :=
  { s with block_events := s.block_events ++
      [⟨now, source, url, status, block_type, evidence, proxy_used,
        user_agent⟩] }

/-- The odds primary key of a row. -/
def oddsKey (r : OddsRow) : String × String × String :=
  (r.match_id, r.market, r.selection)

/-- SELECT the matches row with the given primary key. -/
def matchLookup (rows : List MatchRow) (id : String) : Option MatchRow :=
  rows.find? (fun r => r.match_id == id)

/-- SELECT the odds row with the given primary key. -/
def oddsLookup (rows : List OddsRow) (id market selection : String) :
    Option OddsRow :=
  rows.find? (fun r => sameOddsKey r id market selection)

/-- Number of matches rows carrying the given primary key. -/
def matchCount (rows : List MatchRow) (id : String) : Nat :=
  (rows.filter (fun r => r.match_id == id)).length

/-- The last odds entry of the observation carrying the given (market,
selection) key: the latest observed price for that key. -/
def lastWithKey (os : List MatchOdd) (market selection : String) :
    Option MatchOdd :=
  os.reverse.find? (fun o => o.market == market && o.selection == selection)

/-- Value of a digit string (most significant first). -/
def digitsToNat (cs : List Char) : Nat :=
  cs.foldl (fun acc c => acc * 10 + (c.toNat - 48)) 0

/-- Python float() on a string: optional sign, digits with optional
fractional part, optional exponent, surrounding whitespace allowed.
(inf, nan and underscore separators are omitted; no claim exercises
them.) -/
def parseFloatChars (cs : List Char) : Option Rat :=
  let sgncs : Rat × List Char :=
    match cs with
    | '-' :: rest => (-1, rest)
    | '+' :: rest => (1, rest)
    | _ => (1, cs)
  let sgn := sgncs.1
  let cs1 := sgncs.2
  let ip := cs1.takeWhile Char.isDigit
  let cs2 := cs1.dropWhile Char.isDigit
  let fpcs : List Char × List Char :=
    match cs2 with
    | '.' :: rest => (rest.takeWhile Char.isDigit, rest.dropWhile Char.isDigit)
    | _ => ([], cs2)
  let fp := fpcs.1
  let cs3 := fpcs.2
  if ip.isEmpty && fp.isEmpty then Option.none
  else
    let base : Rat :=
      sgn * ((digitsToNat ip : Rat) + (digitsToNat fp : Rat) / ((10 : Rat) ^ fp.length))
    match cs3 with
    | [] => Option.some base
    | e :: rest =>
      if e == 'e' || e == 'E' then
        let esgnr : Int × List Char :=
          match rest with
          | '-' :: r => (-1, r)
          | '+' :: r => (1, r)
          | _ => (1, rest)
        let ed := esgnr.2.takeWhile Char.isDigit
        let rest2 := esgnr.2.dropWhile Char.isDigit
        if ed.isEmpty || !rest2.isEmpty then Option.none
        else Option.some (base * (10 : Rat) ^ (esgnr.1 * (digitsToNat ed : Int)))
      else Option.none

/-- Python float(x): ints and floats convert by value (bool as 0/1),
strings parse as float literals, anything else raises (TypeError,
modelled as Option.none since parse_odds catches it). -/
def pyFloat : PyVal → Option Rat
  | .int n => Option.some (n : Rat)
  | .float q => Option.some q
  | .bool b => Option.some (if b then 1 else 0)
  | .str s => parseFloatChars (pyStrip s).data
  | _ => Option.none

/-- Python iteration: lists yield their elements, strings their
characters, dicts their keys; other values raise TypeError. -/
def pyIter : PyVal → Except PyErr (List PyVal)
  | .list xs => .ok xs
  | .str s => .ok (s.data.map (fun c => PyVal.str (String.mk [c])))
  | .dict kvs => .ok (kvs.map (fun kv => PyVal.str kv.fst))
  | _ => .error .typeError

/-- The fixed keyword set of parser.is_esport_football. -/
def esportKeywords : List String :=
  ["e-sport", "esport", "efootball", "e-football", "e foci", "fifa",
   "e-foot", "virtual football"]

/-- parser.is_esport_football. Mind the placement of str(): it is
applied to each item.get(...) before the or, so a missing key renders
as the truthy string None and the sportName / tournament fallbacks are
consulted only when the primary field is present with an empty
str(). -/
def is_esport_football (item : PyVal) : Except PyErr Bool := do
  let sportv ← pyGet item "sport"
  let sportnv ← pyGet item "sportName"
  let sport := pyLower (strOr (strOr (pyStr sportv) (pyStr sportnv)) "")
  let leaguev ← pyGet item "league"
  let tournv ← pyGet item "tournament"
  let league := pyLower (strOr (strOr (pyStr leaguev) (pyStr tournv)) "")
  let namev ← pyGet item "name"
  let name := pyLower (strOr (pyStr namev) "")
  let combined := sport ++ " " ++ league ++ " " ++ name
  return esportKeywords.any (fun k => pyIn k combined)

/-- The selections loop of parser.parse_odds: resolve a selection name
and a price; float() failure skips just that entry. -/
def parseSels (market_name : String) (results : List MatchOdd) :
    List PyVal → Except PyErr (List MatchOdd)
  | [] => .ok results
  | sel :: rest => do
    let n1 ← pyGet sel "name"
    let n2 ← pyGet sel "selection"
    let n3 ← pyGet sel "outcome"
    let selection_name :=
      pyStrip (pyStr (pyOr (pyOr (pyOr n1 n2) n3) (PyVal.str "")))
    let p1 ← pyGet sel "odds"
    let p2 ← pyGet sel "price"
    let p3 ← pyGet sel "decimal"
    let p4 ← pyGet sel "value"
    let price := pyOr (pyOr (pyOr p1 p2) p3) p4
    match pyFloat price with
    | Option.none => parseSels market_name results rest
    | Option.some pf =>
        parseSels market_name (results ++ [⟨market_name, selection_name, pf⟩]) rest

/-- The markets loop of parser.parse_odds. -/
def parseMarkets (results : List MatchOdd) :
    List PyVal → Except PyErr (List MatchOdd)
  | [] => .ok results
  | market :: rest => do
    let mn1 ← pyGet market "name"
    let mn2 ← pyGet market "market"
    let market_name := pyStrip (pyStr (pyOr (pyOr mn1 mn2) (PyVal.str "")))
    let s1 ← pyGet market "selections"
    let s2 ← pyGet market "outcomes"
    let selections := pyOr (pyOr s1 s2) (PyVal.list [])
    let selList ← pyIter selections
    let results2 ← parseSels market_name results selList
    parseMarkets results2 rest

/-- parser.parse_odds. -/
def parse_odds (raw : PyVal) : Except PyErr (List MatchOdd) := do
  let m1 ← pyGet raw "markets"
  let m2 ← pyGet raw "odds"
  let markets := pyOr (pyOr m1 m2) (PyVal.list [])
  let mlist ← pyIter markets
  parseMarkets [] mlist

/-- The home/away resolution expression of parser.parse_match: when
item.get(k1) is a dict, (get(k1) or get(k2) or get(k3) or \x7b\x7d)
.get("name") — which raises AttributeError when the or-chain lands on
a truthy non-dict — otherwise the plain or-chain. -/
def resolveSide (item : PyVal) (k1 k2 k3 : String) : Except PyErr PyVal := do
  let v1 ← pyGet item k1
  let v2 ← pyGet item k2
  let v3 ← pyGet item k3
  if isDict v1 then
    pyGet (pyOr (pyOr (pyOr v1 v2) v3) (PyVal.dict [])) "name"
  else
    return pyOr (pyOr v1 v2) v3

/-- The isinstance(x, dict) -> x.get("name") narrowing of
parser.parse_match. -/
def unwrapName : PyVal → PyVal
  | .dict kvs => dictGet kvs "name"
  | v => v

/-- Split at the first occurrence of the separator, dropping it
(Python s.split(sep, 1); only called when sep occurs in s). -/
def splitFirstAux (sep : List Char) : List Char → List Char × List Char
  | [] => ([], [])
  | c :: cs =>
    if charsHeadMatch sep (c :: cs) then ([], (c :: cs).drop sep.length)
    else
      let lr := splitFirstAux sep cs
      (c :: lr.1, lr.2)

/-- Python s.split(sep, 1) packaged on strings. -/
def pySplitFirst (s sep : String) : String × String :=
  let lr := splitFirstAux sep.data s.data
  (String.mk lr.1, String.mk lr.2)

/-- The try-block of parser.parse_match, line by line. Returns .ok
Option.none on the explicit return None paths and .error for any
raised exception (caught by the enclosing except). -/
def parse_match_body (fts : Rat → Option Rat) (tp : String → Option Rat)
    (item : PyVal) : Except PyErr (Option Match) := do
  let home0 ← resolveSide item "homeTeam" "home" "team1"
  let away0 ← resolveSide item "awayTeam" "away" "team2"
  let home1 := unwrapName home0
  let away1 := unwrapName away0
  let namev ← pyGet item "name"
  let name := pyStrip (pyStr (pyOr namev (PyVal.str "")))
  let ha :=
    if !pyTruthy home1 || !pyTruthy away1 then
      if name != "" && pyIn " - " name then
        let p := pySplitFirst name " - "
        (PyVal.str (pyStrip p.1), PyVal.str (pyStrip p.2))
      else (home1, away1)
    else (home1, away1)
  let home2 := ha.1
  let away2 := ha.2
  if !pyTruthy home2 || !pyTruthy away2 then
    return Option.none
  let idv1 ← pyGet item "id"
  let idv2 ← pyGet item "matchId"
  let idv3 ← pyGet item "eventId"
  let idv4 ← pyGet item "fixtureId"
  let startv ← pyGet item "start"
  let match_id := pyStr (pyOr (pyOr (pyOr (pyOr idv1 idv2) idv3) idv4)
    (PyVal.str (pyStr home2 ++ "-" ++ pyStr away2 ++ "-" ++ pyStr startv)))
  let tv1 ← pyGet item "tournament"
  let tv2 ← pyGet item "league"
  let tv3 ← pyGet item "competition"
  let tournament := pyOr (pyOr tv1 tv2) tv3
  let sr1 ← pyGet item "start"
  let sr2 ← pyGet item "startTime"
  let sr3 ← pyGet item "kickoff"
  let sr4 ← pyGet item "date"
  let start_raw := pyOr (pyOr (pyOr sr1 sr2) sr3) sr4
  let start_time := parse_datetime fts tp start_raw
  let lv1 ← pyGet item "live"
  let lv2 ← pyGet item "inplay"
  let lv3 ← pyGet item "isLive"
  let is_live := pyTruthy (pyOr (pyOr lv1 lv2) lv3)
  let odds ← parse_odds item
  let sv1 ← pyGet item "sport"
  let sv2 ← pyGet item "sportName"
  let sport := pyStrip (pyStr (pyOr (pyOr sv1 sv2) (PyVal.str "E-sport")))
  let keep ← is_esport_football item
  if !keep then
    return Option.none
  return Option.some
    { match_id := match_id, sport := sport,
      tournament :=
        if pyTruthy tournament then Option.some (pyStr tournament)
        else Option.none,
      home_team := pyStr home2, away_team := pyStr away2,
      start_time := start_time, is_live := is_live, odds := odds,
      raw := item }

/-- parser.parse_match: the except Exception handler maps every raised
error to None. -/
def parse_match (fts : Rat → Option Rat) (tp : String → Option Rat)
    (item : PyVal) : Option Match :=
  match parse_match_body fts tp item with
  | .ok r => r
  | .error _ => Option.none

/-- Case-preserving header lookup (python dict.get on the header map;
playwright and httpx deliver lowercase header names). -/
def headerGet (hs : List (String × String)) (k : String) : Option String :=
  match hs.find? (fun kv => kv.fst == k) with
  | Option.some kv => Option.some kv.snd
  | Option.none => Option.none

/-- dict.get(key, default) on a header map. -/
def headerGetD (hs : List (String × String)) (k d : String) : String :=
  match headerGet hs k with
  | Option.some v => v
  | Option.none => d

/-- scraper.is_api_request: re.search with the case-insensitive
patterns /api/.*, /sport.* and /mobile/.*, each equivalent to a
substring search for its literal part since .* also matches the empty
string. -/
def is_api_request (url : String) : Bool :=
  pyIn "/api/" (pyLower url) || pyIn "/sport" (pyLower url) ||
    pyIn "/mobile/" (pyLower url)

/-- A web response as scraper._handle_response observes it: status is
None when reading it raises, headersOk records whether the header read
(resp.headers / all_headers()) succeeds, and bodyJson is the JSON
value of the decoded body when json.loads succeeds. -/
structure WebResp where
  url : String
  status : Option Int
  method : Option String
  resource_type : Option String
  headersOk : Bool
  headers : List (String × String)
  bodyJson : Option PyVal

/-- scraper.extract_json_from_response: None unless the content-type
header contains json and the body parses as JSON; a failing header or
body read lands in the except and also yields None. -/
def extract_json_from_response (r : WebResp) : Option PyVal :=
  if !r.headersOk then Option.none
  else if pyIn "json" (pyLower (headerGetD r.headers "content-type" "")) then
    r.bodyJson
  else Option.none

/-- The container keys scraper.process_payload probes, in order. -/
def containerKeys : List String :=
  ["events", "matches", "data", "items", "list", "fixtures"]

/-- The container scan of scraper.process_payload: for each known key
whose value is a list, the list's dict elements extend the candidate
list. payload.get raises on a non-dict root (json.loads may produce
one), before anything is written. -/
def gatherCands (payload : PyVal) : List String → Except PyErr (List PyVal)
  | [] => .ok []
  | k :: ks => do
    let v ← pyGet payload k
    let rest ← gatherCands payload ks
    match v with
    | .list xs => .ok (xs.filter isDict ++ rest)
    | _ => .ok rest

/-- The per-candidate loop of scraper.process_payload: parse each
candidate; an extracted match is upserted, then the raw item is logged
keyed by its match id. Returns the store and the inserted count. -/
def processItems (fts : Rat → Option Rat) (tp : String → Option Rat)
    (now : String) : List PyVal → Store → Nat → Store × Nat
  | [], s, n => (s, n)
  | item :: rest, s, n =>
    match parse_match fts tp item with
    | Option.none => processItems fts tp now rest s n
    | Option.some m =>
        processItems fts tp now rest
          (insert_raw now (Option.some m.match_id) item
            (upsert_match now m s)) (n + 1)

/-- scraper.process_payload. The only raising step (payload.get on a
non-dict root) happens before any write, so an error leaves the store
untouched and propagates to the caller. -/
def process_payload (fts : Rat → Option Rat) (tp : String → Option Rat)
    (now : String) (s : Store) (payload : PyVal) :
    Except PyErr (Store × Nat) := do
  let cands0 ← gatherCands payload containerKeys
  let cands := if cands0.isEmpty && isDict payload then [payload] else cands0
  return processItems fts tp now cands s 0

/-- The redirect statuses _handle_response checks. -/
def redirectCodes : List Int := [301, 302, 303, 307, 308]

/-- scraper._handle_response: insert the response network event; a
redirect status whose location header contains ip-blokk logs a
geo_ip_block block event with the redirect target as evidence; then
for API-matching URLs the JSON payload (when present and truthy) goes
through process_payload. Any exception in the tail is only logged, and
the only raising step precedes all payload writes. -/
def handle_response (fts : Rat → Option Rat) (tp : String → Option Rat)
    (now : String) (s : Store) (r : WebResp) : Store :=
  let s1 := insert_network_event now "response" r.url r.method r.status
    r.resource_type (if r.headersOk then Option.some r.headers else Option.none)
    Option.none Option.none Option.none s
  let s2 :=
    match r.status with
    | Option.some st =>
      if st ∈ redirectCodes then
        match (if r.headersOk then headerGet r.headers "location"
               else Option.none) with
        | Option.some loc =>
          if loc != "" && pyIn "ip-blokk" loc then
            insert_block_event now "web" r.url (Option.some st) "geo_ip_block"
              ("redirect:" ++ loc) Option.none Option.none s1
          else s1
        | Option.none => s1
      else s1
    | Option.none => s1
  if !is_api_request r.url then s2
  else
    match extract_json_from_response r with
    | Option.none => s2
    | Option.some payload =>
      if !pyTruthy payload then s2
      else
        match process_payload fts tp now s2 payload with
        | .ok sn => sn.1
        | .error _ => s2

/-- One response of the API poller as scraper.poll_api_once observes
it: status, headers, the header maps of the redirect history hops, the
JSON body when resp.json() succeeds, and the content byte length. -/
structure ApiResp where
  status : Int
  headers : List (String × String)
  history : List (List (String × String))
  bodyJson : Option PyVal
  contentLen : Int

/-- The content type poll_api_once computes:
(resp.headers.get("content-type") or "").lower(). -/
def ctypeOf (r : ApiResp) : String :=
  pyLower (headerGetD r.headers "content-type" "")

/-- The redirect-history scan of poll_api_once: the location header of
the first hop carrying a truthy one. -/
def firstLocation : List (List (String × String)) → Option String
  | [] => Option.none
  | h :: rest =>
    match headerGet h "location" with
    | Option.some loc =>
        if loc != "" then Option.some loc else firstLocation rest
    | Option.none => firstLocation rest

/-- The loop body of scraper.poll_api_once for one endpoint whose GET
returned a response (a failed GET only logs an api_error event): log
the api_response network event; when the redirect history targets the
ip-blokk page or the content type is HTML, log one block event typed
geo_ip_block if the block page was the redirect target and html_block
otherwise; when the content type contains json, append the body to
raw_responses unlinked and process it. A raising resp.json() or
payload scan lands in the endpoint's except, which logs an api_error
event (str(e) is abstracted; a JSONDecodeError or AttributeError has
no response attribute, so the except's own html_block probe never
fires here). Returns the store and the processed count. -/
def pollApiStep (fts : Rat → Option Rat) (tp : String → Option Rat)
    (now : String) (proxy_used user_agent : Option String) (s : Store)
    (url : String) (r : ApiResp) : Store × Nat :=
  let s1 := insert_network_event now "api_response" url (Option.some "GET")
    (Option.some r.status) (Option.some "http") (Option.some r.headers)
    (Option.some r.contentLen) Option.none Option.none s
  let ctype := ctypeOf r
  let redirected_to := firstLocation r.history
  let rstr := match redirected_to with
    | Option.some l => l
    | Option.none => ""
  let s2 :=
    if pyIn "ip-blokk" rstr || pyIn "text/html" ctype then
      insert_block_event now "api" url (Option.some r.status)
        (if pyIn "ip-blokk" rstr then "geo_ip_block" else "html_block")
        (match redirected_to with
         | Option.some l => "redirect:" ++ l
         | Option.none => "ctype:" ++ ctype)
        proxy_used user_agent s1
    else s1
  if pyIn "json" ctype then
    match r.bodyJson with
    | Option.none =>
        (insert_network_event now "api_error" url (Option.some "GET")
          Option.none (Option.some "http") Option.none Option.none
          Option.none (Option.some "json-decode") s2, 0)
    | Option.some data =>
        let s3 := insert_raw now Option.none data s2
        match process_payload fts tp now s3 data with
        | .ok sn => sn
        | .error _ =>
            (insert_network_event now "api_error" url (Option.some "GET")
              Option.none (Option.some "http") Option.none Option.none
              Option.none (Option.some "payload-scan") s3, 0)
  else (s2, 0)

lemma strOr_empty (s : String) : strOr s "" = s := by
  unfold strOr
  split <;> simp_all

lemma firstPassing_eq_find (probe : String → Bool) :
    ∀ l : List String, firstPassing probe l = l.find? probe := by
  intro l
  induction l with
  | nil => rfl
  | cons x xs ih =>
    by_cases h : probe x <;> simp [firstPassing, List.find?_cons, h, ih]

lemma rotateGo_chunk30 (probe : String → Bool) (st : Option String) :
    ∀ l : List String, rotateGo probe (chunk30 l) st =
      (match l.find? probe with
       | Option.some p => (Option.some p, Option.some p)
       | Option.none => (Option.none, st)) := by
  have H : ∀ (n : Nat) (l : List String), l.length ≤ n →
      rotateGo probe (chunk30 l) st =
        (match l.find? probe with
         | Option.some p => (Option.some p, Option.some p)
         | Option.none => (Option.none, st)) := by
    intro n
    induction n with
    | zero =>
      intro l hl
      have : l = [] := List.eq_nil_of_length_eq_zero (Nat.le_zero.mp hl)
      subst this; simp [chunk30, rotateGo]
    | succ n ih =>
      intro l hl
      cases l with
      | nil => simp [chunk30, rotateGo]
      | cons x xs =>
        have hsplit : x :: xs = (x :: xs.take 29) ++ xs.drop 29 := by
          simp [List.take_append_drop]
        rw [chunk30]
        show (match firstPassing probe (x :: xs.take 29) with
              | Option.some p => (Option.some p, Option.some p)
              | Option.none => rotateGo probe (chunk30 (xs.drop 29)) st) = _
        rw [firstPassing_eq_find]
        rcases hfp : (x :: xs.take 29).find? probe with _ | p
        · have hdroplen : (xs.drop 29).length ≤ n := by
            simp at hl ⊢; omega
          rw [ih (xs.drop 29) hdroplen]
          have : (x :: xs).find? probe = (xs.drop 29).find? probe := by
            rw [hsplit, List.find?_append, hfp]; rfl
          rw [this]
        · have : (x :: xs).find? probe = Option.some p := by
            rw [hsplit, List.find?_append, hfp]; rfl
          rw [this]
  intro l
  exact H l.length l le_rfl

lemma choose_mitigation_eq_rotate_iff (s : String) :
    choose_mitigation s = "rotate_proxy_or_hu_exit" ↔
      pyLower s = "geo_ip_block" := by
  unfold choose_mitigation
  rw [strOr_empty]
  dsimp only
  split_ifs with h1 h2 h3 h4
  · simpa using h1
  · exact iff_of_false (by decide) (by simpa using h1)
  · exact iff_of_false (by decide) (by simpa using h1)
  · exact iff_of_false (by decide) (by simpa using h1)
  · exact iff_of_false (by decide) (by simpa using h1)

lemma find?_map_pred {α : Type} (f : α → α) (p : α → Bool)
    (hp : ∀ a, p (f a) = p a) (l : List α) :
    (l.map f).find? p = (l.find? p).map f := by
  induction l with
  | nil => rfl
  | cons x xs ih =>
    by_cases h : p x = true
    · rw [List.map_cons, List.find?_cons_of_pos _ (by rw [hp]; exact h),
        List.find?_cons_of_pos _ h]
      rfl
    · rw [List.map_cons, List.find?_cons_of_neg _ (by rw [hp]; simpa using h),
        List.find?_cons_of_neg _ (by simpa using h), ih]

lemma sameOddsKey_eq {r : OddsRow} {id market selection : String}
    (h : sameOddsKey r id market selection = true) :
    r.match_id = id ∧ r.market = market ∧ r.selection = selection := by
  have h2 := h
  simp only [sameOddsKey, Bool.and_eq_true, beq_iff_eq] at h2
  exact ⟨h2.1.1, h2.1.2, h2.2⟩

lemma sameOddsKey_upd (now id : String) (o : MatchOdd) (r : OddsRow)
    (id2 mk2 sel2 : String) :
    sameOddsKey (if sameOddsKey r id o.market o.selection = true then
        { r with odds := o.odds, updated_at := now } else r) id2 mk2 sel2 =
      sameOddsKey r id2 mk2 sel2 := by
  split <;> rfl

lemma oddsLookup_upsert_self (now id : String) (o : MatchOdd)
    (rows : List OddsRow) :
    oddsLookup (upsertOddsRow now id o rows) id o.market o.selection =
      Option.some ⟨id, o.market, o.selection, o.odds, now⟩ := by
  unfold upsertOddsRow oddsLookup
  split_ifs with hex
  · rw [find?_map_pred _ _ (fun r => sameOddsKey_upd now id o r id o.market o.selection)]
    have hsome : (rows.find? (fun r => sameOddsKey r id o.market o.selection)).isSome := by
      rw [List.find?_isSome]
      simpa [List.any_eq_true] using hex
    obtain ⟨r0, hr0⟩ := Option.isSome_iff_exists.mp hsome
    rw [hr0]
    have hk := List.find?_some hr0
    obtain ⟨h1, h2, h3⟩ := sameOddsKey_eq hk
    cases r0
    simp only [Option.map_some', if_pos hk]
    simp_all
  · rw [List.find?_append]
    have hnone : rows.find? (fun r => sameOddsKey r id o.market o.selection) =
        Option.none := by
      rw [List.find?_eq_none]
      intro x hx hpx
      exact hex (List.any_eq_true.mpr ⟨x, hx, hpx⟩)
    rw [hnone]
    simp [sameOddsKey]

lemma oddsLookup_upsert_other (now id : String) (o : MatchOdd)
    (rows : List OddsRow) (id2 mk2 sel2 : String)
    (hne : ¬(id2 = id ∧ mk2 = o.market ∧ sel2 = o.selection)) :
    oddsLookup (upsertOddsRow now id o rows) id2 mk2 sel2 =
      oddsLookup rows id2 mk2 sel2 := by
  unfold upsertOddsRow oddsLookup
  split_ifs with hex
  · rw [find?_map_pred _ _ (fun r => sameOddsKey_upd now id o r id2 mk2 sel2)]
    rcases hfind : rows.find? (fun r => sameOddsKey r id2 mk2 sel2) with _ | r0
    · rfl
    · have hk2 := List.find?_some hfind
      obtain ⟨h1, h2, h3⟩ := sameOddsKey_eq hk2
      have hfalse : ¬ sameOddsKey r0 id o.market o.selection = true := by
        intro hsk
        obtain ⟨g1, g2, g3⟩ := sameOddsKey_eq hsk
        exact hne ⟨h1 ▸ g1, h2 ▸ g2, h3 ▸ g3⟩
      simp only [Option.map_some', if_neg hfalse]
  · rw [List.find?_append]
    have hlast : ([⟨id, o.market, o.selection, o.odds, now⟩] :
        List OddsRow).find? (fun r => sameOddsKey r id2 mk2 sel2) =
        Option.none := by
      have : sameOddsKey ⟨id, o.market, o.selection, o.odds, now⟩ id2 mk2 sel2 = false := by
        by_contra hc
        have := sameOddsKey_eq (by simpa using hc)
        exact hne ⟨this.1.symm, this.2.1.symm, this.2.2.symm⟩
      simp [List.find?, this]
    rw [hlast]
    rcases rows.find? (fun r => sameOddsKey r id2 mk2 sel2) with _ | r0 <;> rfl

lemma mem_upsertOddsRow (now id : String) (o : MatchOdd)
    (rows : List OddsRow) (r : OddsRow) (hr : r ∈ rows)
    (hne : sameOddsKey r id o.market o.selection = false) :
    r ∈ upsertOddsRow now id o rows := by
  unfold upsertOddsRow
  split_ifs with hex
  · have heq : (if sameOddsKey r id o.market o.selection = true then
        { r with odds := o.odds, updated_at := now } else r) = r := by
      rw [if_neg (by simp [hne])]
    exact heq ▸ List.mem_map_of_mem _ hr
  · exact List.mem_append_left _ hr

lemma oddsKey_upd (now id : String) (o : MatchOdd) (r : OddsRow) :
    oddsKey (if sameOddsKey r id o.market o.selection = true then
        { r with odds := o.odds, updated_at := now } else r) = oddsKey r := by
  split <;> rfl

lemma nodup_upsertOddsRow (now id : String) (o : MatchOdd)
    (rows : List OddsRow) (h : (rows.map oddsKey).Nodup) :
    ((upsertOddsRow now id o rows).map oddsKey).Nodup := by
  unfold upsertOddsRow
  split_ifs with hex
  · rw [List.map_map]
    have : rows.map (oddsKey ∘ fun r =>
        if sameOddsKey r id o.market o.selection = true then
          { r with odds := o.odds, updated_at := now } else r) =
        rows.map oddsKey :=
      List.map_congr_left (fun r _ => oddsKey_upd now id o r)
    rw [this]; exact h
  · rw [List.map_append, List.nodup_append]
    refine ⟨h, List.nodup_singleton _, ?_⟩
    intro k hk hk1
    simp only [List.map_cons, List.map_nil, List.mem_singleton] at hk1
    subst hk1
    obtain ⟨r0, hr0mem, hr0key⟩ := List.mem_map.mp hk
    apply hex
    apply List.any_eq_true.mpr
    refine ⟨r0, hr0mem, ?_⟩
    have h1 : r0.match_id = id := congrArg Prod.fst hr0key
    have h23 := congrArg Prod.snd hr0key
    have h2 : r0.market = o.market := congrArg Prod.fst h23
    have h3 : r0.selection = o.selection := congrArg Prod.snd h23
    simp [sameOddsKey, h1, h2, h3]

lemma applyOdds_cons (now id : String) (o : MatchOdd) (os : List MatchOdd)
    (rows : List OddsRow) :
    applyOdds now id (o :: os) rows =
      applyOdds now id os (upsertOddsRow now id o rows) := rfl

lemma lastWithKey_cons (o : MatchOdd) (os : List MatchOdd) (mk sel : String) :
    lastWithKey (o :: os) mk sel =
      ((os.reverse.find? (fun x => x.market == mk && x.selection == sel)).or
        (if o.market == mk && o.selection == sel then Option.some o
         else Option.none)) := by
  unfold lastWithKey
  rw [List.reverse_cons, List.find?_append]
  by_cases h : (o.market == mk && o.selection == sel) = true <;>
    simp [List.find?, h]

lemma oddsLookup_applyOdds (now id mk sel : String) :
    ∀ (os : List MatchOdd) (rows : List OddsRow),
      oddsLookup (applyOdds now id os rows) id mk sel =
        (match lastWithKey os mk sel with
         | Option.some olast => Option.some ⟨id, mk, sel, olast.odds, now⟩
         | Option.none => oddsLookup rows id mk sel) := by
  intro os
  induction os with
  | nil => intro rows; rfl
  | cons o os' ih =>
    intro rows
    rw [applyOdds_cons, ih, lastWithKey_cons]
    rcases hl : os'.reverse.find? (fun x => x.market == mk && x.selection == sel)
      with _ | o2
    · by_cases hko : (o.market == mk && o.selection == sel) = true
      · have hmk : o.market = mk ∧ o.selection = sel := by
          simpa [Bool.and_eq_true] using hko
        have := oddsLookup_upsert_self now id o rows
        rw [hl]
        unfold lastWithKey
        rw [hl]
        simp only [hko, if_pos, Option.or]
        rw [hmk.1, hmk.2] at this
        exact this
      · have hne : ¬(id = id ∧ mk = o.market ∧ sel = o.selection) := by
          intro hc
          apply hko
          simp [Bool.and_eq_true, hc.2.1.symm, hc.2.2.symm]
        have := oddsLookup_upsert_other now id o rows id mk sel hne
        rw [hl]
        unfold lastWithKey
        rw [hl]
        simp only [hko, if_neg, Option.or]
        simpa using this
    · rw [hl]
      unfold lastWithKey
      rw [hl]
      rfl

lemma mem_applyOdds (now id : String) :
    ∀ (os : List MatchOdd) (rows : List OddsRow) (r : OddsRow),
      r ∈ rows →
      (∀ o ∈ os, sameOddsKey r id o.market o.selection = false) →
      r ∈ applyOdds now id os rows := by
  intro os
  induction os with
  | nil => intro rows r hr _; exact hr
  | cons o os' ih =>
    intro rows r hr hkeys
    rw [applyOdds_cons]
    exact ih _ r
      (mem_upsertOddsRow now id o rows r hr (hkeys o (List.mem_cons_self o os')))
      (fun o2 ho2 => hkeys o2 (List.mem_cons_of_mem o ho2))

lemma nodup_applyOdds (now id : String) :
    ∀ (os : List MatchOdd) (rows : List OddsRow),
      (rows.map oddsKey).Nodup →
      ((applyOdds now id os rows).map oddsKey).Nodup := by
  intro os
  induction os with
  | nil => intro rows h; exact h
  | cons o os' ih =>
    intro rows h
    rw [applyOdds_cons]
    exact ih _ (nodup_upsertOddsRow now id o rows h)

lemma matchKey_upd (now : String) (m : Match) (r : MatchRow) :
    (if r.match_id == m.match_id then
        { r with sport := m.sport, tournament := m.tournament,
                 home_team := m.home_team, away_team := m.away_team,
                 start_time := m.start_time, is_live := m.is_live,
                 updated_at := now }
      else r).match_id = r.match_id := by
  split <;> rfl

lemma nodup_upsertMatchRow (now : String) (m : Match) (rows : List MatchRow)
    (h : (rows.map (fun r => r.match_id)).Nodup) :
    ((upsertMatchRow now m rows).map (fun r => r.match_id)).Nodup := by
  unfold upsertMatchRow
  split_ifs with hex
  · rw [List.map_map]
    have heq : rows.map ((fun r => r.match_id) ∘ (fun r =>
        if r.match_id == m.match_id then
          { r with sport := m.sport, tournament := m.tournament,
                   home_team := m.home_team, away_team := m.away_team,
                   start_time := m.start_time, is_live := m.is_live,
                   updated_at := now }
        else r)) = rows.map (fun r => r.match_id) :=
      List.map_congr_left (fun r _ => matchKey_upd now m r)
    rw [heq]; exact h
  · rw [List.map_append, List.nodup_append]
    refine ⟨h, List.nodup_singleton _, ?_⟩
    intro k hk hk1
    simp only [List.map_cons, List.map_nil, List.mem_singleton] at hk1
    subst hk1
    obtain ⟨r0, hmem, hkey⟩ := List.mem_map.mp hk
    exact hex (List.any_eq_true.mpr ⟨r0, hmem, by simp [hkey]⟩)

lemma filter_map_pred {α : Type} (f : α → α) (p : α → Bool)
    (hp : ∀ a, p (f a) = p a) (l : List α) :
    ((l.map f).filter p).length = (l.filter p).length := by
  induction l with
  | nil => rfl
  | cons x xs ih =>
    by_cases h : p x = true
    · simp [List.filter_cons, hp x, h, ih]
    · simp [List.filter_cons, hp x, h, ih]

lemma length_filter_key_of_nodup :
    ∀ (rows : List MatchRow), (rows.map (fun r => r.match_id)).Nodup →
      ∀ id : String, rows.any (fun r => r.match_id == id) = true →
      (rows.filter (fun r => r.match_id == id)).length = 1 := by
  intro rows
  induction rows with
  | nil => intro _ id h; simp at h
  | cons r rs ih =>
    intro hnd id hany
    rw [List.map_cons, List.nodup_cons] at hnd
    by_cases h : (r.match_id == id) = true
    · have hempty : rs.filter (fun x => x.match_id == id) = [] := by
        rw [List.filter_eq_nil_iff]
        intro a ha hpa
        apply hnd.1
        rw [List.mem_map]
        refine ⟨a, ha, ?_⟩
        have h1 : r.match_id = id := by simpa using h
        have h2 : a.match_id = id := by simpa using hpa
        rw [h2, h1]
      simp [List.filter_cons, h, hempty]
    · have hany2 : rs.any (fun x => x.match_id == id) = true := by
        rcases List.any_eq_true.mp hany with ⟨a, ha, hpa⟩
        rcases List.mem_cons.mp ha with h1 | h1
        · subst h1; exact absurd hpa h
        · exact List.any_eq_true.mpr ⟨a, h1, hpa⟩
      simpa [List.filter_cons, h] using ih hnd.2 id hany2

lemma matchCount_upsert (now : String) (m : Match) (rows : List MatchRow)
    (h : (rows.map (fun r => r.match_id)).Nodup) :
    matchCount (upsertMatchRow now m rows) m.match_id = 1 := by
  unfold upsertMatchRow matchCount
  split_ifs with hex
  · rw [filter_map_pred _ _ (fun r => by rw [matchKey_upd now m r])]
    exact length_filter_key_of_nodup rows h m.match_id hex
  · rw [List.filter_append]
    have hnil : rows.filter (fun r => r.match_id == m.match_id) = [] := by
      rw [List.filter_eq_nil_iff]
      intro a ha hpa
      exact hex (List.any_eq_true.mpr ⟨a, ha, hpa⟩)
    simp [hnil]

lemma find?_key_of_mem_nodup :
    ∀ (rows : List MatchRow), (rows.map (fun x => x.match_id)).Nodup →
      ∀ r ∈ rows, rows.find? (fun x => x.match_id == r.match_id) =
        Option.some r := by
  intro rows
  induction rows with
  | nil => intro _ r hr; simp at hr
  | cons a rs ih =>
    intro hnd r hr
    rw [List.map_cons, List.nodup_cons] at hnd
    rcases List.mem_cons.mp hr with h1 | h1
    · subst h1
      exact List.find?_cons_of_pos _ (by simp)
    · by_cases hk : (a.match_id == r.match_id) = true
      · exfalso
        apply hnd.1
        rw [List.mem_map]
        exact ⟨r, h1, (beq_iff_eq.mp hk).symm⟩
      · rw [List.find?_cons_of_neg _ (by simpa using hk)]
        exact ih hnd.2 r h1

lemma processItems_frame (fts : Rat → Option Rat) (tp : String → Option Rat)
    (now : String) :
    ∀ (cands : List PyVal) (s : Store) (n : Nat),
      (processItems fts tp now cands s n).1.block_events = s.block_events ∧
      (processItems fts tp now cands s n).1.network_events =
        s.network_events := by
  intro cands
  induction cands with
  | nil => intro s n; exact ⟨rfl, rfl⟩
  | cons item rest ih =>
    intro s n
    simp only [processItems]
    cases parse_match fts tp item
    · exact ih s n
    · exact ih _ _

lemma processItems_raws_extend (fts : Rat → Option Rat)
    (tp : String → Option Rat) (now : String) :
    ∀ (cands : List PyVal) (s : Store) (n : Nat),
      ∃ t : List RawRow,
        (processItems fts tp now cands s n).1.raw_responses =
          s.raw_responses ++ t := by
  intro cands
  induction cands with
  | nil => intro s n; exact ⟨[], by simp [processItems]⟩
  | cons item rest ih =>
    intro s n
    simp only [processItems]
    cases hpm : parse_match fts tp item with
    | none => exact ih s n
    | some m =>
      obtain ⟨t, ht⟩ := ih
        (insert_raw now (Option.some m.match_id) item (upsert_match now m s))
        (n + 1)
      refine ⟨⟨Option.some m.match_id, item, now⟩ :: t, ?_⟩
      rw [ht]
      simp [insert_raw, upsert_match]

lemma process_payload_frame (fts : Rat → Option Rat)
    (tp : String → Option Rat) (now : String) (s : Store) (payload : PyVal)
    (sn : Store × Nat)
    (h : process_payload fts tp now s payload = .ok sn) :
    sn.1.block_events = s.block_events ∧
    sn.1.network_events = s.network_events := by
  unfold process_payload at h
  cases hg : gatherCands payload containerKeys with
  | error e =>
    rw [hg] at h
    exact absurd h (by simp [Bind.bind, Except.bind])
  | ok cands0 =>
    rw [hg] at h
    simp only [Bind.bind, Except.bind, pure, Except.pure, Except.ok.injEq] at h
    subst h
    exact processItems_frame fts tp now _ s 0

end Tippmix

namespace Tippmix

/-- C8 (amended): choose_mitigation implements the fixed strategy table
with case-insensitive matching of the block-type string: geo_ip_block
maps to rotate_proxy_or_hu_exit, captcha to
stealth_and_retry_with_human_mouse, rate_limit to
backoff_and_randomize, html_block to force_proxy_and_web_context, and
any value whose lowercasing is none of those four maps to
generic_retry; auto_mitigate runs an automated corrective action only
for the rotation strategy, returning None and leaving the Active Proxy
State unchanged whenever the block type is not (case-insensitively)
geo_ip_block. -/
theorem choose_mitigation_table :
    choose_mitigation "geo_ip_block" = "rotate_proxy_or_hu_exit" ∧
    choose_mitigation "captcha" = "stealth_and_retry_with_human_mouse" ∧
    choose_mitigation "rate_limit" = "backoff_and_randomize" ∧
    choose_mitigation "html_block" = "force_proxy_and_web_context" ∧
    (∀ s : String,
      pyLower s ∉ (["geo_ip_block", "captcha", "rate_limit", "html_block"] : List String) →
      choose_mitigation s = "generic_retry") ∧
    (∀ (probe : String → Bool) (cands : List String) (st : Option String) (s : String),
      pyLower s ≠ "geo_ip_block" →
      auto_mitigate probe cands s st = (Option.none, st)) := by
  refine ⟨by decide, by decide, by decide, by decide, ?_, ?_⟩
  · intro s hs
    simp only [List.mem_cons, List.mem_singleton, not_or] at hs
    obtain ⟨h1, h2, h3, h4⟩ := hs
    unfold choose_mitigation
    rw [strOr_empty]
    dsimp only
    simp [h1, h2, h3, h4]
  · intro probe cands st s hs
    unfold auto_mitigate
    dsimp only
    have hne : ¬ choose_mitigation s = "rotate_proxy_or_hu_exit" := by
      rw [choose_mitigation_eq_rotate_iff]; exact hs
    simp [hne]

/-- Witness for C8's amended theorem: an unrecognized block type maps
to generic_retry, and mitigating captcha is a no-op on the state. -/
theorem choose_mitigation_table_witness :
    choose_mitigation "mystery" = "generic_retry" ∧
    auto_mitigate (fun _ => true) ["p"] "captcha" (Option.some "old") =
      (Option.none, Option.some "old") := by
  constructor
  · exact choose_mitigation_table.2.2.2.2.1 "mystery" (by decide)
  · exact choose_mitigation_table.2.2.2.2.2 (fun _ => true) ["p"]
      (Option.some "old") "captcha" (by decide)

/-- C8 counterexample: the claim maps every value other than the four
listed block types to generic_retry, but choose_mitigation lowercases
its input first, so the other value GEO_IP_BLOCK maps to
rotate_proxy_or_hu_exit instead. -/
theorem choose_mitigation_case_cex :
    choose_mitigation "GEO_IP_BLOCK" = "rotate_proxy_or_hu_exit" ∧
    "GEO_IP_BLOCK" ≠ "geo_ip_block" ∧
    choose_mitigation "GEO_IP_BLOCK" ≠ "generic_retry" := by
  refine ⟨by decide, by decide, by decide⟩

/-- C5: mitigate(geo_ip_block) runs the proxy rotation: when the
candidate pool contains a passing proxy, the first passing candidate
(batch slices are scanned in order, so batch order coincides with pool
order) is returned and persisted as the new Active Proxy State; when
no candidate passes, the result is None and the prior Active Proxy
State is left unchanged. -/
theorem mitigate_geo_ip_block (probe : String → Bool) (cands : List String)
    (st : Option String) :
    (∀ p : String, cands.find? probe = Option.some p →
      auto_mitigate probe cands "geo_ip_block" st =
        (Option.some p, Option.some p)) ∧
    (cands.find? probe = Option.none →
      auto_mitigate probe cands "geo_ip_block" st = (Option.none, st)) := by
  have hgo : auto_mitigate probe cands "geo_ip_block" st =
      rotate_proxy probe cands st := rfl
  constructor
  · intro p hp
    rw [hgo]
    unfold rotate_proxy
    rw [rotateGo_chunk30 probe st cands, hp]
  · intro hp
    rw [hgo]
    unfold rotate_proxy
    rw [rotateGo_chunk30 probe st cands, hp]

/-- Witness for C5: in the pool [a, b, c] with only b passing the geo
probe, mitigation returns b and persists it; with no passing
candidate the prior state old survives. -/
theorem mitigate_geo_ip_block_witness :
    auto_mitigate (fun s => s == "b") ["a", "b", "c"] "geo_ip_block"
      (Option.some "old") = (Option.some "b", Option.some "b") ∧
    auto_mitigate (fun _ => false) ["a", "c"] "geo_ip_block"
      (Option.some "old") = (Option.none, Option.some "old") := by
  constructor
  · exact (mitigate_geo_ip_block (fun s => s == "b") ["a", "b", "c"]
      (Option.some "old")).1 "b" (by decide)
  · exact (mitigate_geo_ip_block (fun _ => false) ["a", "c"]
      (Option.some "old")).2 (by decide)

/-- C9: parse_datetime interprets numeric epochs above 10 billion as
milliseconds (dividing by 1000 before conversion) and every other
numeric value as seconds; None, empty or whitespace-only strings,
invalid date text and numbers rejected by the timestamp conversion all
yield Option.none, and the function is total (never an error). -/
theorem parse_datetime_heuristic (fts : Rat → Option Rat) (tp : String → Option Rat) :
    (∀ n : Int, (n : Rat) > 10000000000 →
      parse_datetime fts tp (.int n) = fts ((n : Rat) / 1000)) ∧
    (∀ n : Int, ¬ (n : Rat) > 10000000000 →
      parse_datetime fts tp (.int n) = fts (n : Rat)) ∧
    (∀ q : Rat, q > 10000000000 →
      parse_datetime fts tp (.float q) = fts (q / 1000)) ∧
    (∀ q : Rat, ¬ q > 10000000000 →
      parse_datetime fts tp (.float q) = fts q) ∧
    (parse_datetime fts tp PyVal.none = Option.none) ∧
    (∀ s : String, pyStrip s = "" →
      parse_datetime fts tp (.str s) = Option.none) ∧
    (∀ s : String, pyStrip s ≠ "" → tp s = Option.none →
      parse_datetime fts tp (.str s) = Option.none) ∧
    (∀ q : Rat, fts q = Option.none → ¬ q > 10000000000 →
      parse_datetime fts tp (.float q) = Option.none) := by
  refine ⟨?_, ?_, ?_, ?_, rfl, ?_, ?_, ?_⟩
  · intro n h; simp [parse_datetime, h]
  · intro n h; simp [parse_datetime, h]
  · intro q h; simp [parse_datetime, h]
  · intro q h; simp [parse_datetime, h]
  · intro s h; simp [parse_datetime, h]
  · intro s h h2; simp [parse_datetime, h, h2]
  · intro q h h2; simp [parse_datetime, h2, h]

/-- Witness for C9 at concrete inputs: 20000000000 is treated as
milliseconds, the epoch 5 as seconds, and a whitespace string yields
Option.none. -/
theorem parse_datetime_heuristic_witness :
    parse_datetime Option.some (fun _ => Option.none) (.int 20000000000) =
      Option.some 20000000 ∧
    parse_datetime Option.some (fun _ => Option.none) (.int 5) = Option.some 5 ∧
    parse_datetime Option.some (fun _ => Option.none) (.str "  ") = Option.none := by
  have h := parse_datetime_heuristic Option.some (fun _ => Option.none)
  refine ⟨?_, ?_, ?_⟩
  · rw [h.1 20000000000 (by norm_num)]; norm_num
  · rw [h.2.1 5 (by norm_num)]; norm_num
  · exact h.2.2.2.2.2.1 "  " (by decide)

end Tippmix

namespace Tippmix

/-- C6: two successive upsert_match calls for the same match_id leave
exactly one matches row for that id; for every (market, selection) key
observed in the second call the stored odds row holds that key's last
price of the second observation, stamped with the second call's time;
the odds primary key stays duplicate-free; and odds rows whose key is
not among the second observation's keys survive from the intermediate
store untouched (markets omitted in the second observation are not
deleted). -/
theorem upsert_match_twice (s0 : Store) (m m2 : Match) (t1 t2 : String)
    (hid : m2.match_id = m.match_id)
    (hm : (s0.matchesT.map (fun r => r.match_id)).Nodup)
    (ho : (s0.odds.map oddsKey).Nodup) :
    matchCount ((upsert_match t2 m2 (upsert_match t1 m s0)).matchesT)
      m.match_id = 1 ∧
    (((upsert_match t2 m2 (upsert_match t1 m s0)).odds.map oddsKey)).Nodup ∧
    (∀ (mk sel : String) (olast : MatchOdd),
      lastWithKey m2.odds mk sel = Option.some olast →
      oddsLookup (upsert_match t2 m2 (upsert_match t1 m s0)).odds
          m2.match_id mk sel =
        Option.some ⟨m2.match_id, mk, sel, olast.odds, t2⟩) ∧
    (∀ r : OddsRow, r ∈ (upsert_match t1 m s0).odds →
      (∀ o ∈ m2.odds, sameOddsKey r m2.match_id o.market o.selection = false) →
      r ∈ (upsert_match t2 m2 (upsert_match t1 m s0)).odds) := by
  refine ⟨?_, ?_, ?_, ?_⟩
  · show matchCount (upsertMatchRow t2 m2 (upsertMatchRow t1 m s0.matchesT))
      m.match_id = 1
    rw [← hid]
    exact matchCount_upsert t2 m2 _ (nodup_upsertMatchRow t1 m _ hm)
  · show ((applyOdds t2 m2.match_id m2.odds
      (applyOdds t1 m.match_id m.odds s0.odds)).map oddsKey).Nodup
    exact nodup_applyOdds t2 m2.match_id m2.odds _
      (nodup_applyOdds t1 m.match_id m.odds s0.odds ho)
  · intro mk sel olast hlast
    show oddsLookup (applyOdds t2 m2.match_id m2.odds
      (applyOdds t1 m.match_id m.odds s0.odds)) m2.match_id mk sel = _
    rw [oddsLookup_applyOdds t2 m2.match_id mk sel m2.odds _, hlast]
  · intro r hr hkeys
    show r ∈ applyOdds t2 m2.match_id m2.odds
      (applyOdds t1 m.match_id m.odds s0.odds)
    exact mem_applyOdds t2 m2.match_id m2.odds _ r hr hkeys

/-- Witness for C6: upserting the same match twice, the second time
with a changed price for (1X2, Home), leaves one matches row for id 42
and the odds row holding the second price stamped with the second
time. -/
theorem upsert_match_twice_witness :
    matchCount ((upsert_match "t2"
        ⟨"42", "E-sport", Option.none, "A", "B", Option.none, false,
          [⟨"1X2", "Home", 2⟩], PyVal.none⟩
        (upsert_match "t1"
          ⟨"42", "E-sport", Option.none, "A", "B", Option.none, false,
            [⟨"1X2", "Home", (37 : Rat)/20⟩], PyVal.none⟩
          ⟨[], [], [], [], []⟩)).matchesT) "42" = 1 ∧
    oddsLookup (upsert_match "t2"
        ⟨"42", "E-sport", Option.none, "A", "B", Option.none, false,
          [⟨"1X2", "Home", 2⟩], PyVal.none⟩
        (upsert_match "t1"
          ⟨"42", "E-sport", Option.none, "A", "B", Option.none, false,
            [⟨"1X2", "Home", (37 : Rat)/20⟩], PyVal.none⟩
          ⟨[], [], [], [], []⟩)).odds "42" "1X2" "Home" =
      Option.some ⟨"42", "1X2", "Home", 2, "t2"⟩ := by
  have h := upsert_match_twice ⟨[], [], [], [], []⟩
    ⟨"42", "E-sport", Option.none, "A", "B", Option.none, false,
      [⟨"1X2", "Home", (37 : Rat)/20⟩], PyVal.none⟩
    ⟨"42", "E-sport", Option.none, "A", "B", Option.none, false,
      [⟨"1X2", "Home", 2⟩], PyVal.none⟩
    "t1" "t2" rfl (by simp) (by simp)
  exact ⟨h.1, h.2.2.1 "1X2" "Home" ⟨"1X2", "Home", 2⟩ rfl⟩

/-- C10: when a matches row with the same match_id already exists,
upsert_match overwrites sport, tournament, home_team, away_team,
start_time, is_live and updated_at of that row but keeps its
created_at unchanged. -/
theorem upsert_match_keeps_created_at (s0 : Store) (m : Match) (t : String)
    (r : MatchRow) (hr : r ∈ s0.matchesT) (hkey : r.match_id = m.match_id)
    (hm : (s0.matchesT.map (fun x => x.match_id)).Nodup) :
    matchLookup (upsert_match t m s0).matchesT m.match_id =
      Option.some ⟨m.match_id, m.sport, m.tournament, m.home_team,
        m.away_team, m.start_time, m.is_live, r.created_at, t⟩ := by
  show matchLookup (upsertMatchRow t m s0.matchesT) m.match_id = _
  unfold upsertMatchRow matchLookup
  have hex : s0.matchesT.any (fun x => x.match_id == m.match_id) = true :=
    List.any_eq_true.mpr ⟨r, hr, by simp [hkey]⟩
  rw [if_pos hex]
  rw [find?_map_pred _ _ (fun x => by rw [matchKey_upd t m x])]
  rw [← hkey, find?_key_of_mem_nodup s0.matchesT hm r hr]
  simp only [Option.map_some']
  rw [if_pos (by simp : (r.match_id == r.match_id) = true)]

/-- Witness for C10: re-upserting id 42 keeps created_at c0 while every
other column takes the new value. -/
theorem upsert_match_keeps_created_at_witness :
    matchLookup (upsert_match "t1"
        ⟨"42", "E-sport", Option.none, "A", "B", Option.none, true, [],
          PyVal.none⟩
        ⟨[⟨"42", "Old", Option.none, "X", "Y", Option.none, false, "c0",
            "u0"⟩], [], [], [], []⟩).matchesT "42" =
      Option.some ⟨"42", "E-sport", Option.none, "A", "B", Option.none,
        true, "c0", "t1"⟩ := by
  exact upsert_match_keeps_created_at
    ⟨[⟨"42", "Old", Option.none, "X", "Y", Option.none, false, "c0",
        "u0"⟩], [], [], [], []⟩
    ⟨"42", "E-sport", Option.none, "A", "B", Option.none, true, [],
      PyVal.none⟩
    "t1"
    ⟨"42", "Old", Option.none, "X", "Y", Option.none, false, "c0", "u0"⟩
    (by simp) rfl (by simp)

end Tippmix

namespace Tippmix

/-- C7: parse_match terminates on every input value and never
propagates an error: the result is always either a normalized match or
None, any exception raised inside the body being mapped to None by the
enclosing handler. -/
theorem parse_match_total (fts : Rat → Option Rat) (tp : String → Option Rat)
    (item : PyVal) :
    parse_match fts tp item = Option.none ∨
    ∃ m : Match, parse_match fts tp item = Option.some m := by
  cases hb : parse_match_body fts tp item with
  | error e => exact Or.inl (by rw [parse_match, hb])
  | ok r =>
    cases r with
    | none => exact Or.inl (by rw [parse_match, hb])
    | some m => exact Or.inr ⟨m, by rw [parse_match, hb]⟩

/-- C4 evaluated at the failing input: the record's sportName field
contains the keyword esport (so the claimed case-insensitive scan over
sport name, league/tournament and display name keeps it), yet
is_esport_football answers false and parse_match rejects the record:
str(item.get("sport")) renders the missing sport key as the truthy
string None, so the sportName fallback — and likewise the tournament
fallback — is never consulted. -/
theorem is_esport_football_sportName_dropped :
    pyIn "esport" (pyLower (pyStr (dictGet
        [("sportName", PyVal.str "esport"), ("home", PyVal.str "A"),
         ("away", PyVal.str "B")] "sportName"))) = true ∧
    is_esport_football (PyVal.dict
        [("sportName", PyVal.str "esport"), ("home", PyVal.str "A"),
         ("away", PyVal.str "B")]) = Except.ok false ∧
    parse_match (fun _ => Option.none) (fun _ => Option.none) (PyVal.dict
        [("sportName", PyVal.str "esport"), ("home", PyVal.str "A"),
         ("away", PyVal.str "B")]) = Option.none := by
  exact ⟨rfl, rfl, rfl⟩

end Tippmix

namespace Tippmix

lemma process_payload_raws_extend (fts : Rat → Option Rat)
    (tp : String → Option Rat) (now : String) (s : Store) (payload : PyVal)
    (sn : Store × Nat)
    (h : process_payload fts tp now s payload = .ok sn) :
    ∃ t : List RawRow, sn.1.raw_responses = s.raw_responses ++ t := by
  unfold process_payload at h
  cases hg : gatherCands payload containerKeys with
  | error e =>
    rw [hg] at h
    exact absurd h (by simp [Bind.bind, Except.bind])
  | ok cands0 =>
    rw [hg] at h
    simp only [Bind.bind, Except.bind, pure, Except.pure, Except.ok.injEq] at h
    subst h
    exact processItems_raws_extend fts tp now _ s 0

/-- C1: every observed web response with a redirect status (301, 302,
303, 307, 308) whose location header contains the ip-blokk marker
makes _handle_response append exactly one block_event row of type
geo_ip_block whose evidence names the redirect target; no other step
of the handler touches block_events. insert_block_event itself is
modelled from the spec (its definition is absent from storage.py). -/
theorem handle_response_block_event (fts : Rat → Option Rat)
    (tp : String → Option Rat) (now : String) (s : Store) (r : WebResp)
    (st : Int) (loc : String)
    (hst : r.status = Option.some st) (hcode : st ∈ redirectCodes)
    (hhdr : r.headersOk = true)
    (hloc : headerGet r.headers "location" = Option.some loc)
    (hmark : pyIn "ip-blokk" loc = true) :
    (handle_response fts tp now s r).block_events =
      s.block_events ++
        [⟨now, "web", r.url, Option.some st, "geo_ip_block",
          "redirect:" ++ loc, Option.none, Option.none⟩] := by
  have hl : loc ≠ "" := by
    intro h
    rw [h] at hmark
    exact absurd hmark (by decide)
  have hlocne : (loc != "") = true := bne_iff_ne.mpr hl
  unfold handle_response
  rw [hst]
  simp only [hhdr, if_pos hcode, hloc, hlocne, hmark, Bool.and_self, if_true,
    ite_true, Bool.true_and, Bool.and_true]
  split
  · rfl
  · split
    · rfl
    · split
      · rfl
      · split
        · rename_i sn heq
          rw [(process_payload_frame fts tp now _ _ sn heq).1]
          rfl
        · rfl

/-- Witness for C1: a 302 response redirecting to the ip-blokk page
yields exactly the geo_ip_block block event with the redirect target
as evidence. -/
theorem handle_response_block_event_witness :
    (handle_response (fun _ => Option.none) (fun _ => Option.none) "t"
      ⟨[], [], [], [], []⟩
      ⟨"https://www.tippmix.hu/x", Option.some 302, Option.some "GET",
        Option.some "document", true,
        [("location", "https://www.tippmix.hu/ip-blokk")],
        Option.none⟩).block_events =
      [⟨"t", "web", "https://www.tippmix.hu/x", Option.some 302,
        "geo_ip_block", "redirect:https://www.tippmix.hu/ip-blokk",
        Option.none, Option.none⟩] := by
  rw [handle_response_block_event (fun _ => Option.none)
    (fun _ => Option.none) "t" ⟨[], [], [], [], []⟩
    ⟨"https://www.tippmix.hu/x", Option.some 302, Option.some "GET",
      Option.some "document", true,
      [("location", "https://www.tippmix.hu/ip-blokk")], Option.none⟩
    302 "https://www.tippmix.hu/ip-blokk" rfl (by decide) rfl rfl (by decide)]
  rfl

/-- C3: when one API observation exhibits both an HTML content type
and a redirect history whose target contains the ip-blokk marker, the
block event poll_api_once records is typed geo_ip_block, never
html_block: the redirect test is evaluated first. -/
theorem poll_api_block_precedence (fts : Rat → Option Rat)
    (tp : String → Option Rat) (now : String)
    (proxy_used user_agent : Option String) (s : Store) (url : String)
    (r : ApiResp) (loc : String)
    (hloc : firstLocation r.history = Option.some loc)
    (hmark : pyIn "ip-blokk" loc = true)
    (hhtml : pyIn "text/html" (ctypeOf r) = true) :
    (pollApiStep fts tp now proxy_used user_agent s url r).1.block_events =
      s.block_events ++
        [⟨now, "api", url, Option.some r.status, "geo_ip_block",
          "redirect:" ++ loc, proxy_used, user_agent⟩] := by
  unfold pollApiStep
  rw [hloc]
  simp only [hmark, hhtml, Bool.true_or, Bool.or_true, if_true, ite_true]
  split
  · split
    · rfl
    · split
      · rename_i sn heq
        rw [(process_payload_frame fts tp now _ _ sn heq).1]
        rfl
      · rfl
  · rfl

/-- Witness for C3: an HTML response whose redirect history targets
the ip-blokk page logs geo_ip_block, not html_block. -/
theorem poll_api_block_precedence_witness :
    (pollApiStep (fun _ => Option.none) (fun _ => Option.none) "t"
      (Option.some "proxy") (Option.some "ua") ⟨[], [], [], [], []⟩ "u"
      ⟨200, [("content-type", "text/html; charset=utf-8")],
        [[("location", "https://www.tippmix.hu/ip-blokk")]],
        Option.none, 7⟩).1.block_events =
      [⟨"t", "api", "u", Option.some 200, "geo_ip_block",
        "redirect:https://www.tippmix.hu/ip-blokk",
        Option.some "proxy", Option.some "ua"⟩] := by
  rw [poll_api_block_precedence (fun _ => Option.none)
    (fun _ => Option.none) "t" (Option.some "proxy") (Option.some "ua")
    ⟨[], [], [], [], []⟩ "u"
    ⟨200, [("content-type", "text/html; charset=utf-8")],
      [[("location", "https://www.tippmix.hu/ip-blokk")]],
      Option.none, 7⟩
    "https://www.tippmix.hu/ip-blokk" rfl (by decide) (by decide)]
  rfl

/-- C2 (amended): in the API poller, every response whose content type
contains json and whose body parses appends at least one raw_responses
row — the JSON body, unlinked to any match — before extraction, so the
row exists regardless of whether any match was extracted. -/
theorem poll_api_json_logs_raw (fts : Rat → Option Rat)
    (tp : String → Option Rat) (now : String)
    (proxy_used user_agent : Option String) (s : Store) (url : String)
    (r : ApiResp) (data : PyVal)
    (hct : pyIn "json" (ctypeOf r) = true)
    (hbody : r.bodyJson = Option.some data) :
    ∃ rest : List RawRow,
      (pollApiStep fts tp now proxy_used user_agent s url r).1.raw_responses =
        s.raw_responses ++ ⟨Option.none, data, now⟩ :: rest := by
  unfold pollApiStep
  rw [hbody]
  simp only [hct, if_true, ite_true]
  split
  · rename_i sn heq
    obtain ⟨t, ht⟩ := process_payload_raws_extend fts tp now _ data sn heq
    refine ⟨t, ?_⟩
    rw [ht]
    split
    · simp [insert_raw, insert_block_event, insert_network_event]
    · simp [insert_raw, insert_network_event]
  · refine ⟨[], ?_⟩
    split
    · simp [insert_raw, insert_block_event, insert_network_event]
    · simp [insert_raw, insert_network_event]

/-- Witness for C2's amended theorem: a JSON response whose payload
yields no match still leaves the raw_responses log non-empty. -/
theorem poll_api_json_logs_raw_witness :
    (pollApiStep (fun _ => Option.none) (fun _ => Option.none) "t"
      Option.none Option.none ⟨[], [], [], [], []⟩ "u"
      ⟨200, [("content-type", "application/json")], [],
        Option.some (PyVal.dict [("events", PyVal.list [])]),
        2⟩).1.raw_responses ≠ [] := by
  obtain ⟨rest, hrest⟩ := poll_api_json_logs_raw (fun _ => Option.none)
    (fun _ => Option.none) "t" Option.none Option.none
    ⟨[], [], [], [], []⟩ "u"
    ⟨200, [("content-type", "application/json")], [],
      Option.some (PyVal.dict [("events", PyVal.list [])]), 2⟩
    (PyVal.dict [("events", PyVal.list [])]) (by decide) rfl
  rw [hrest]
  simp

/-- C2 counterexample: a browser-capture response with JSON content
type whose payload yields no extracted match appends no raw_responses
row at all — the browser path logs raw payloads only per extracted
match, so the claim fails for that capture source. -/
theorem handle_response_raw_cex :
    (handle_response (fun _ => Option.none) (fun _ => Option.none) "t"
      ⟨[], [], [], [], []⟩
      ⟨"https://api.tippmix.hu/api/foo", Option.some 200,
        Option.some "GET", Option.some "xhr", true,
        [("content-type", "application/json")],
        Option.some (PyVal.dict [("events",
          PyVal.list [])])⟩).raw_responses = [] ∧
    pyIn "json" (pyLower "application/json") = true := by
  exact ⟨rfl, rfl⟩

end Tippmix
